import Mathlib

/-!
Shallow embedding of the CNPJ ingestion pipeline (`lib/loaders.py`) and
verification of its specified properties.

Conventions of the embedding:
* Machine strings are Lean `String`s; byte streams are `List Nat`.
* The working directory (`data/`) is an association list from file name
  to parquet content (`PFile`: column names plus rows of strings).
* The DuckDB database is a record of named tables plus the catalog table.
* Python functions that mutate state and may raise become Lean functions
  returning `σ × Except String α`: the returned state reflects all side
  effects performed before a raise (Python semantics).
* External collaborators (the pandas CSV parser, the network) are taken
  as function parameters at their interface, exactly where the source
  calls into them.
-/

deriving instance DecidableEq for Except

namespace Loaders

/-! ### String helpers (Python `in`, `str.lower`, zero padding) -/

/-- `listStartsWith hay needle` is Python-style prefix test on char lists. -/
def listStartsWith : List Char → List Char → Bool
  | _, [] => true
  | [], _ :: _ => false
  | a :: as, b :: bs => a == b && listStartsWith as bs

/-- `listHasSub needle hay` models Python `needle in hay` (substring test). -/
def listHasSub (needle : List Char) : List Char → Bool
  | [] => listStartsWith [] needle
  | h :: t => listStartsWith (h :: t) needle || listHasSub needle t

/-- `strHasSub hay sub` models Python `sub in hay`. -/
def strHasSub (hay sub : String) : Bool :=
  listHasSub sub.data hay.data

/-- Python `str.lower()` on a char list (ASCII case fold, as `Char.toLower`). -/
def lowerStr (s : List Char) : List Char :=
  s.map Char.toLower

/-- Decimal rendering with structural fuel (`fuel > n` suffices). -/
def natDigitsAux : Nat → Nat → List Char
  | 0, _ => []
  | fuel + 1, n =>
      if n < 10 then [Nat.digitChar n]
      else natDigitsAux fuel (n / 10) ++ [Nat.digitChar (n % 10)]

/-- Decimal rendering of a natural number (Python `str(n)`). -/
def natDigits (n : Nat) : List Char :=
  natDigitsAux (n + 1) n

/-- Zero left padding: Python format `{n:0wd}` for natural `n`. -/
def padZeros (w : Nat) (n : Nat) : String :=
  String.mk (List.replicate (w - (natDigits n).length) '0' ++ natDigits n)

/-! ### Data model: parquet content, file system, database -/

/-- Content of one parquet file (or of one pandas row batch): column
names and rows of string cells.  All fields are read as text
(`dtype=str`) in the source. -/
structure PFile where
  cols : List String
  rows : List (List String)
  deriving Repr, DecidableEq

/-- The `data/` working directory: file name ↦ parquet content. -/
abbrev FileSys := List (String × PFile)

/-- First-match association-list lookup. -/
def assocLookup {α : Type} (l : List (String × α)) (key : String) : Option α :=
  match l with
  | [] => none
  | (p, f) :: rest => if p = key then some f else assocLookup rest key

/-- Lookup a file by name (first match). -/
def fsLookup (fs : FileSys) (path : String) : Option PFile :=
  assocLookup fs path

/-- Write (create or overwrite) a file. -/
def fsWrite (fs : FileSys) (path : String) (f : PFile) : FileSys :=
  match fs with
  | [] => [(path, f)]
  | (p, g) :: rest =>
      if p = path then (p, f) :: rest else (p, g) :: fsWrite rest path f

/-- Delete every file whose name satisfies `pat` (`Path.unlink` in a loop
over a glob; deletion of an existing file succeeds in this model). -/
def fsRemoveMatching (fs : FileSys) (pat : String → Bool) : FileSys :=
  fs.filter (fun e => !pat e.1)

/-- Files whose name satisfies `pat`, in directory order (`glob`). -/
def fsGlob (fs : FileSys) (pat : String → Bool) : List (String × PFile) :=
  fs.filter (fun e => pat e.1)

/-- One entry of the `catalog` table
(`id, dataset, month_ref, source_url, parquet_path, rows, loaded_at`). -/
structure CatalogEntry where
  dataset : String
  month_ref : String
  source_url : String
  parquet_path : String
  rowCount : Option Nat
  loaded_at : Nat
  deriving Repr, DecidableEq

/-- A DuckDB table: schema (column names) plus rows. -/
structure Table where
  cols : List String
  rows : List (List String)
  deriving Repr, DecidableEq

/-- The DuckDB database file: named tables, and the `catalog` table
(`none` while `CREATE TABLE IF NOT EXISTS catalog` has not run). -/
structure DB where
  tables : List (String × Table)
  catalog : Option (List CatalogEntry)
  deriving DecidableEq

/-- Lookup a table by name. -/
def tableLookup (db : DB) (name : String) : Option Table :=
  assocLookup db.tables name

/-- `DROP TABLE IF EXISTS name`. -/
def dropTable (db : DB) (name : String) : DB :=
  ⟨db.tables.filter (fun e => e.1 ≠ name), db.catalog⟩

/-- Replace the first binding of `key` (or append one). -/
def assocSet {α : Type} (l : List (String × α)) (key : String) (v : α) :
    List (String × α) :=
  match l with
  | [] => [(key, v)]
  | (n, u) :: rest =>
      if n = key then (n, v) :: rest else (n, u) :: assocSet rest key v

/-- Replace (or add) the table bound to `name`. -/
def setTable (db : DB) (name : String) (t : Table) : DB :=
  ⟨assocSet db.tables name t, db.catalog⟩

/-! ### `ensure_table_from_parquet` (the Table Registrar)

```text
def ensure_table_from_parquet(name, parquet_path, replace=False):
    if replace: execute(DROP TABLE IF EXISTS name)
    execute(CREATE TABLE IF NOT EXISTS name AS SELECT * FROM parquet_scan(path) LIMIT 0)
    execute(INSERT INTO name SELECT * FROM parquet_scan(path))
```

`parquet_scan` on a missing file raises; `CREATE ... LIMIT 0` copies the
artifact's schema with zero rows; positional `INSERT ... SELECT *` requires
matching column arity, else it raises. -/

def ensure_table_from_parquet (fs : FileSys) (db : DB) (name : String)
    (parquet_path : String) (replace : Bool) : DB × Except String Unit :=
  match fsLookup fs parquet_path with
  | none => (db, .error "IO Error: No files found that match the pattern")
  | some artifact =>
      let db1 := if replace then dropTable db name else db
      let db2 :=
        match tableLookup db1 name with
        | some _ => db1
        | none => setTable db1 name ⟨artifact.cols, []⟩
      match tableLookup db2 name with
      | none => (db2, .error "Catalog Error: table does not exist")
      | some t =>
          if t.cols.length = artifact.cols.length then
            (setTable db2 name ⟨t.cols, t.rows ++ artifact.rows⟩, .ok ())
          else
            (db2, .error "Binder Error: table has different column count")

/-! ### `_choose_zip_member` (the Archive Payload Selector)

```text
def _choose_zip_member(zf, prefer_keywords=None):
    members = entries of zf.infolist() that are not directories
    if not members: raise FileNotFoundError(Nenhum arquivo elegivel dentro do ZIP)
    if prefer_keywords:
        keys = [k.lower() for k in prefer_keywords]
        by_kw = [m for m in members if any(k in m.filename.lower() for k in keys)]
        if by_kw: return max(by_kw, key=lambda m: m.file_size)
    return max(members, key=lambda m: m.file_size)
```
-/

/-- One `ZipInfo` entry of an archive. -/
structure ZipEntry where
  filename : List Char
  file_size : Nat
  isDir : Bool
  deriving Repr, DecidableEq

/-- Python `max(iterable, key=...)`: keeps the earliest element among
maxima (a later element replaces the current best only when strictly
larger). -/
def maxBySize (best : ZipEntry) : List ZipEntry → ZipEntry
  | [] => best
  | m :: ms => maxBySize (if m.file_size > best.file_size then m else best) ms

/-- Does the entry name contain any of the (already lowered) keywords,
matching case-insensitively? -/
def entryMatches (keys : List (List Char)) (m : ZipEntry) : Bool :=
  keys.any (fun k => listHasSub k (lowerStr m.filename))

def _choose_zip_member (entries : List ZipEntry)
    (prefer_keywords : Option (List (List Char))) : Except String ZipEntry :=
  let members := entries.filter (fun m => !m.isDir)
  match members with
  | [] => .error "FileNotFoundError: Nenhum arquivo elegível dentro do ZIP."
  | m0 :: rest =>
      let fallback := maxBySize m0 rest
      match prefer_keywords with
      | none => .ok fallback
      | some ks =>
          match ks with
          | [] => .ok fallback   -- Python: an empty keyword list is falsy
          | k :: kr =>
              let keys := (k :: kr).map lowerStr
              match (m0 :: rest).filter (entryMatches keys) with
              | [] => .ok fallback
              | b0 :: bs => .ok (maxBySize b0 bs)

/-! ### `_read_csv_iterator` (the Chunked Delimited-Text Reader)

```text
def _read_csv_iterator(fobj, chunksize):
    try:
        return pd.read_csv(fobj, sep semicolon, dtype str, chunksize, encoding latin1)
    except UnicodeDecodeError:
        if hasattr(fobj, seek): fobj.seek(0)
        return pd.read_csv(fobj, sep semicolon, dtype str, chunksize, encoding utf-8)
```

The pandas parser is an external collaborator; it is taken as a function
parameter.  A returned `TextFileReader`, observed by consuming it to
exhaustion, is the list of row batches it yields in order followed by an
optional exception ending the iteration (`ChunkIter`).  Only a
`UnicodeDecodeError` raised while the reader is being constructed is
caught; the stream is rewound (BytesIO is seekable) and the secondary
encoding is tried, whose failures propagate. -/

inductive Encoding where
  | latin1
  | utf8
  deriving Repr, DecidableEq

/-- A pandas exception: the decode error the source catches, or anything
else (carried as its message). -/
inductive PdErr where
  | unicodeDecode
  | other (msg : String)
  deriving Repr, DecidableEq

/-- Message used when a pandas error propagates as a plain exception. -/
def pdErrMsg : PdErr → String
  | .unicodeDecode => "UnicodeDecodeError"
  | .other msg => msg

/-- A `TextFileReader` consumed to exhaustion: its yielded batches in
order, then `some msg` when the iteration itself ended in an exception
(e.g. a tokenizer error in a later chunk). -/
structure ChunkIter where
  batches : List PFile
  failAfter : Option String
  deriving Repr, DecidableEq

/-- The pandas CSV parser at its interface: encoding, `chunksize`, and
the bytes from the stream's current position. -/
abbrev PdParser : Type :=
  Encoding → Nat → List Nat → Except PdErr ChunkIter

/-- A seekable (or not) byte stream with a read position (`io.BytesIO`
or an already-opened file object). -/
structure ByteStream where
  data : List Nat
  pos : Nat
  seekable : Bool
  deriving Repr, DecidableEq

/-- Bytes from the current position to the end (what a whole-stream read
consumes). -/
def streamRest (b : ByteStream) : List Nat :=
  b.data.drop b.pos

def _read_csv_iterator (parse : PdParser) (chunksize : Nat) (fobj : ByteStream) :
    ByteStream × Except PdErr ChunkIter :=
  let consumed : ByteStream := ⟨fobj.data, fobj.data.length, fobj.seekable⟩
  match parse .latin1 chunksize (streamRest fobj) with
  | .ok it => (consumed, .ok it)
  | .error .unicodeDecode =>
      let rewound : ByteStream :=
        if fobj.seekable then ⟨fobj.data, 0, fobj.seekable⟩ else consumed
      match parse .utf8 chunksize (streamRest rewound) with
      | .ok it => (⟨fobj.data, fobj.data.length, fobj.seekable⟩, .ok it)
      | .error e => (rewound, .error e)
  | .error (.other msg) => (consumed, .error (.other msg))

/-! ### `read_csv_semicolon_to_parquet` (Chunk Writer + Concatenator)

```text
def read_csv_semicolon_to_parquet(fobj, name, chunksize=400000):
    for old in DATA.glob(tmp_{name}_*.parquet):
        try: old.unlink(missing_ok=True)
        except: pass
    it = _read_csv_iterator(fobj, chunksize)
    total = 0
    for i, chunk in enumerate(it):
        normalize every column of chunk to string dtype
        write chunk to parquet at DATA / tmp_{name}_{i:06d}.parquet
        total += len(chunk)
    if total == 0: raise ValueError(Nenhum chunk lido do CSV)
    con = open_con()
    try:
        execute(COPY (SELECT * FROM parquet_scan(DATA / tmp_{name}_*.parquet))
                TO DATA / {name}.parquet (FORMAT PARQUET))
    finally:
        con.close()
    for p in DATA.glob(tmp_{name}_*.parquet):
        try: p.unlink(missing_ok=True)
        except: pass
    return DATA / {name}.parquet
```

The dtype normalization is the identity here (cells are strings by
construction).  `COPY (SELECT * FROM parquet_scan(glob))` requires all
matched segments to share a schema, else it raises; it overwrites the
target file.  An exception raised anywhere after the segment loop began
(mid-iteration parser failure, the zero-row check, or the `COPY`)
propagates without reaching the final cleanup loop. -/

/-- Name of segment `i` of a run for `name`: `tmp_{name}_{i:06d}.parquet`. -/
def tmpName (name : String) (i : Nat) : String :=
  "tmp_" ++ name ++ "_" ++ padZeros 6 i ++ ".parquet"

/-- Does `fname` match the glob `tmp_{name}_*.parquet`? -/
def tmpMatch (name fname : String) : Bool :=
  let pre := "tmp_" ++ name ++ "_"
  let suf := ".parquet"
  listStartsWith fname.data pre.data &&
    listStartsWith fname.data.reverse suf.data.reverse &&
    decide (pre.data.length + suf.data.length ≤ fname.data.length)

/-- The segment-writing loop: writes batch `i` to `tmp_{name}_{i:06d}`,
returning the file system after all writes and the total row count. -/
def writeSegs (name : String) (fs : FileSys) (i : Nat) :
    List PFile → FileSys × Nat
  | [] => (fs, 0)
  | b :: bs =>
      let fs1 := fsWrite fs (tmpName name i) b
      let (fs2, rest) := writeSegs name fs1 (i + 1) bs
      (fs2, b.rows.length + rest)

/-- DuckDB `COPY (SELECT * FROM parquet_scan(glob)) TO target`: all
matched files must share a schema; rows are concatenated in glob order. -/
def concatSegs : List (String × PFile) → Except String PFile
  | [] => .error "IO Error: No files found that match the pattern"
  | (_, f) :: rest =>
      if rest.all (fun e => e.2.cols = f.cols) then
        .ok ⟨f.cols, f.rows ++ (rest.map (fun e => e.2.rows)).flatten⟩
      else
        .error "Invalid Input Error: schema mismatch between glob files"

def read_csv_semicolon_to_parquet (parse : PdParser) (fobj : ByteStream)
    (name : String) (chunksize : Nat) (fs : FileSys) :
    FileSys × Except String String :=
  let fs0 := fsRemoveMatching fs (tmpMatch name)
  match (_read_csv_iterator parse chunksize fobj).2 with
  | .error e => (fs0, .error (pdErrMsg e))
  | .ok it =>
      let (fs1, total) := writeSegs name fs0 0 it.batches
      match it.failAfter with
      | some msg => (fs1, .error msg)
      | none =>
          if total = 0 then
            (fs1, .error "ValueError: Nenhum chunk lido do CSV.")
          else
            match concatSegs (fsGlob fs1 (tmpMatch name)) with
            | .error e => (fs1, .error e)
            | .ok artifact =>
                let final_path := name ++ ".parquet"
                let fs2 := fsWrite fs1 final_path artifact
                (fsRemoveMatching fs2 (tmpMatch name), .ok final_path)

/-! ### `prepare_from_uploaded_csv_bytes` -/

def prepare_from_uploaded_csv_bytes (parse : PdParser) (csv_bytes : List Nat)
    (name : String) (fs : FileSys) (db : DB) :
    (FileSys × DB) × Except String String :=
  let fobj : ByteStream := ⟨csv_bytes, 0, true⟩
  match read_csv_semicolon_to_parquet parse fobj name 400000 fs with
  | (fs1, .error e) => ((fs1, db), .error e)
  | (fs1, .ok parquet) =>
      match ensure_table_from_parquet fs1 db name parquet true with
      | (db1, .error e) => ((fs1, db1), .error e)
      | (db1, .ok _) => ((fs1, db1), .ok parquet)

/-! ### The Ingestion Catalog

```text
def _ensure_catalog():
    execute(CREATE TABLE IF NOT EXISTS catalog (id, dataset, month_ref,
            source_url, parquet_path, rows, loaded_at))

def _count_rows_in_parquet(parquet_path):
    try:
        return execute(SELECT COUNT(*) FROM parquet_scan(path)).fetchone()[0]
    except Exception:
        return None

def add_to_catalog(dataset, month_ref, parquet_path, source_url):
    _ensure_catalog()
    rows = _count_rows_in_parquet(parquet_path)
    execute(INSERT INTO catalog VALUES (None, dataset, month_ref,
            source_url or empty, path, rows, now))
```
-/

def _ensure_catalog (db : DB) : DB :=
  match db.catalog with
  | none => ⟨db.tables, some []⟩
  | some _ => db

/-- Best-effort row count: any failure (e.g. the artifact is absent or
unreadable, so `parquet_scan` raises) is swallowed and yields `none`. -/
def _count_rows_in_parquet (fs : FileSys) (parquet_path : String) : Option Nat :=
  match fsLookup fs parquet_path with
  | none => none
  | some f => some f.rows.length

/-- `now` is the wall clock (`datetime.now()`) passed explicitly. -/
def add_to_catalog (fs : FileSys) (db : DB) (dataset month_ref : String)
    (parquet_path : String) (source_url : Option String) (now : Nat) : DB :=
  let db1 := _ensure_catalog db
  let rows := _count_rows_in_parquet fs parquet_path
  ⟨db1.tables,
   some ((db1.catalog.getD []) ++
     [⟨dataset, month_ref, source_url.getD "", parquet_path, rows, now⟩])⟩

/-! ### `prepare_all_for_month` (the Batch Orchestrator)

Embeds the later (shadowing) definition of `prepare_all_for_month` in
the source.  The per-file attempt body — download the ZIP, pick its
payload, parse, write the parquet artifact, replace the table, record
the catalog entry — touches the network, so the whole body is taken as
a state-transforming function parameter `attempt st dataset url`; the
orchestrator's own logic (target resolution, expected-file registry,
URL construction, the try/except classification of each attempt, log
accumulation) is embedded from the source:

```text
def prepare_all_for_month(year, month, datasets=None):
    base = month_dir_url(year, month)
    targets = datasets or list(expected.keys())
    logs = []
    for dataset in targets:
        files = expected.get(dataset, [])
        if not files:
            logs.append((warn, dataset, base, Sem arquivos esperados ...))
            continue
        for fname in files:
            url = base + fname
            try:
                ... download, extract, parse, write, register, catalog ...
                logs.append((ok, dataset, url, Preparado: parquet.name))
            except Exception as e:
                if str(e) contains 404 or Not Found:
                    logs.append((warn, dataset, url, Arquivo nao disponivel ...))
                else:
                    logs.append((error, dataset, url, Falha: e))
    return logs
```
-/

/-- The expected ZIP file names per dataset (`expected.get(dataset, [])`). -/
def expectedFiles (dataset : String) : List String :=
  if dataset = "empresas" then ["Empresas1.zip", "Empresas2.zip"]
  else if dataset = "estabelecimentos" then
    ["Estabelecimentos1.zip", "Estabelecimentos2.zip", "Estabelecimentos3.zip"]
  else if dataset = "socios" then ["Socios1.zip", "Socios2.zip"]
  else if dataset = "simples" then ["Simples.zip"]
  else if dataset = "paises" then ["Paises.zip"]
  else if dataset = "municipios" then ["Municipios.zip"]
  else if dataset = "qualificacoes" then ["Qualificacoes.zip"]
  else if dataset = "naturezas" then ["Naturezas.zip"]
  else if dataset = "cnaes" then ["Cnaes.zip"]
  else []

/-- The keys of the expected-files registry, in insertion order. -/
def allDatasets : List String :=
  ["empresas", "estabelecimentos", "socios", "simples", "paises",
   "municipios", "qualificacoes", "naturezas", "cnaes"]

def month_dir_url (year month : Nat) : String :=
  "https://arquivos.receitafederal.gov.br/dados/cnpj/dados_abertos_cnpj/" ++
    padZeros 4 year ++ "-" ++ padZeros 2 month ++ "/"

/-- One row of the returned log: `(status, dataset, url, msg)`. -/
abbrev LogEntry : Type := String × String × String × String

/-- Does the stringified exception signal that the resource is absent
for the period (`"404" in err or "Not Found" in err`)? -/
def isNotFoundMsg (msg : String) : Bool :=
  strHasSub msg "404" || strHasSub msg "Not Found"

/-- The log entry the source appends for one `(dataset, file)` attempt. -/
def logFor (dataset url : String) (r : Except String Unit) : LogEntry :=
  match r with
  | .ok _ => ("ok", dataset, url, "Preparado: " ++ dataset ++ ".parquet")
  | .error e =>
      if isNotFoundMsg e then
        ("warn", dataset, url, "Arquivo não disponível no mês/ano informado")
      else
        ("error", dataset, url, "Falha: " ++ e)

/-- The per-file attempt body abstracted at its boundary: the state it
transforms and whether it raised (with the stringified exception). -/
abbrev Attempt (σ : Type) : Type :=
  σ → String → String → σ × Except String Unit

/-- The inner `for fname in files` loop. -/
def runFiles {σ : Type} (attempt : Attempt σ) (dataset base : String) :
    σ → List String → σ × List LogEntry
  | st, [] => (st, [])
  | st, fname :: rest =>
      let url := base ++ fname
      let (st1, r) := attempt st dataset url
      let (st2, ls) := runFiles attempt dataset base st1 rest
      (st2, logFor dataset url r :: ls)

/-- The outer `for dataset in targets` loop. -/
def runDatasets {σ : Type} (attempt : Attempt σ) (base : String) :
    σ → List String → σ × List LogEntry
  | st, [] => (st, [])
  | st, d :: ds =>
      let (st1, ls1) :=
        match expectedFiles d with
        | [] =>
            (st, [("warn", d, base,
                   "Sem arquivos esperados configurados para este dataset")])
        | f :: more => runFiles attempt d base st (f :: more)
      let (st2, ls2) := runDatasets attempt base st1 ds
      (st2, ls1 ++ ls2)

/-- Python `datasets or list(expected.keys())`: `None` and the empty
list both fall back to every configured dataset. -/
def resolveTargets (datasets : Option (List String)) : List String :=
  match datasets with
  | some (d :: ds) => d :: ds
  | _ => allDatasets

def prepare_all_for_month {σ : Type} (attempt : Attempt σ)
    (year month : Nat) (datasets : Option (List String)) (st : σ) :
    σ × List LogEntry :=
  runDatasets attempt (month_dir_url year month) st (resolveTargets datasets)

/-! ### Spec-side view of the orchestrator (for the propagation claim)

A second description of the batch run, written from the specification's
words rather than from the source, to be proved equal to
`prepare_all_for_month`. -/

/-- One planned item of a batch: a `(dataset, file)` attempt with its
URL, or a dataset with no configured files. -/
inductive PlanItem where
  | noFiles (dataset : String)
  | fileAttempt (dataset url : String)
  deriving Repr, DecidableEq

/-- Modelled from the spec (§4.6): for every targeted dataset, for every
expected filename associated with it, one attempt, in order. -/
def planFor (base : String) (targets : List String) : List PlanItem :=
  targets.flatMap (fun d =>
    match expectedFiles d with
    | [] => [.noFiles d]
    | files => files.map (fun f => .fileAttempt d (base ++ f)))

/-- Modelled from the spec (§4.6/§7): the status of one attempt — `ok`
on success, `warn` when the failure signals the resource is absent for
the period, `error` for any other failure. -/
def specStatus (r : Except String Unit) : String :=
  match r with
  | .ok _ => "ok"
  | .error e => if isNotFoundMsg e then "warn" else "error"

/-- Modelled from the spec (§4.6): execute the planned attempts in
order; each appends exactly one `(status, dataset, source)` outcome and
processing continues (failures are never propagated), state threaded
from each attempt into the next. -/
def specRun {σ : Type} (attempt : Attempt σ) (base : String) :
    σ → List PlanItem → σ × List (String × String × String)
  | st, [] => (st, [])
  | st, .noFiles d :: rest =>
      let (st1, os) := specRun attempt base st rest
      (st1, ("warn", d, base) :: os)
  | st, .fileAttempt d url :: rest =>
      let (st1, r) := attempt st d url
      let (st2, os) := specRun attempt base st1 rest
      (st2, (specStatus r, d, url) :: os)

/-- Forgets the human-readable message of a log entry. -/
def stripMsg (e : LogEntry) : String × String × String :=
  (e.1, e.2.1, e.2.2.1)

/-! ### Observation helpers used only in proofs -/

/-- Value of a decimal digit character. -/
def digitVal (c : Char) : Nat :=
  c.toNat - '0'.toNat

/-- Decimal decoding, inverse to `natDigits` modulo leading zeros. -/
def decodeDigits (l : List Char) : Nat :=
  l.foldl (fun a c => 10 * a + digitVal c) 0

/-- The segment files `writeSegs` creates, with their contents. -/
def segsList (name : String) (i : Nat) : List PFile → List (String × PFile)
  | [] => []
  | b :: bs => (tmpName name i, b) :: segsList name (i + 1) bs

/-! ## Lemmas: decimal rendering and segment names -/

theorem digitVal_digitChar (d : Nat) (h : d < 10) :
    digitVal (Nat.digitChar d) = d := by
  unfold digitVal
  interval_cases d <;> decide

theorem natDigitsAux_foldl :
    ∀ (fuel n : Nat), n < fuel →
      ∀ a, List.foldl (fun a c => 10 * a + digitVal c) a (natDigitsAux fuel n) =
        a * 10 ^ (natDigitsAux fuel n).length + n := by
  intro fuel
  induction fuel with
  | zero => intro n h; omega
  | succ fuel ih =>
      intro n hn a
      rw [natDigitsAux]
      by_cases h : n < 10
      · rw [if_pos h]
        simp [List.foldl, digitVal_digitChar n h]
        ring
      · rw [if_neg h]
        have hlt : n / 10 < fuel := by
          have hd : n / 10 < n := Nat.div_lt_self (by omega) (by omega)
          omega
        have hm : n % 10 < 10 := Nat.mod_lt _ (by omega)
        rw [List.foldl_append, ih (n / 10) hlt]
        have hdm := Nat.div_add_mod n 10
        simp [List.foldl, digitVal_digitChar _ hm, pow_succ]
        ring_nf
        omega

theorem natDigits_foldl (n : Nat) :
    ∀ a, List.foldl (fun a c => 10 * a + digitVal c) a (natDigits n) =
      a * 10 ^ (natDigits n).length + n :=
  natDigitsAux_foldl (n + 1) n (Nat.lt_succ_self n)

theorem decodeDigits_natDigits (n : Nat) : decodeDigits (natDigits n) = n := by
  unfold decodeDigits
  rw [natDigits_foldl]
  simp

theorem foldl_decode_zeros (k : Nat) :
    List.foldl (fun a c => 10 * a + digitVal c) 0 (List.replicate k '0') = 0 := by
  induction k with
  | zero => rfl
  | succ k ih =>
      rw [List.replicate_succ]
      simpa [List.foldl, digitVal] using ih

theorem decodeDigits_pad (k n : Nat) :
    decodeDigits (List.replicate k '0' ++ natDigits n) = n := by
  unfold decodeDigits
  rw [List.foldl_append, foldl_decode_zeros]
  exact decodeDigits_natDigits n

theorem padZeros_inj (w : Nat) {a b : Nat} (h : padZeros w a = padZeros w b) :
    a = b := by
  have hd := congrArg String.data h
  unfold padZeros at hd
  simp only [] at hd
  calc a = decodeDigits (List.replicate (w - (natDigits a).length) '0' ++ natDigits a) :=
        (decodeDigits_pad _ a).symm
    _ = decodeDigits (List.replicate (w - (natDigits b).length) '0' ++ natDigits b) := by
        rw [hd]
    _ = b := decodeDigits_pad _ b

theorem tmpName_inj (name : String) {i j : Nat} (h : tmpName name i = tmpName name j) :
    i = j := by
  unfold tmpName at h
  have hd := congrArg String.data h
  simp only [String.data_append, List.append_assoc] at hd
  have h1 := List.append_cancel_left hd
  have h2 := List.append_cancel_left h1
  have h3 := List.append_cancel_left h2
  have h4 : (padZeros 6 i).data = (padZeros 6 j).data := List.append_cancel_right h3
  have h5 : padZeros 6 i = padZeros 6 j := by
    cases hp : padZeros 6 i with
    | mk l =>
        cases hq : padZeros 6 j with
        | mk l' =>
            rw [hp, hq] at h4
            simp at h4
            rw [h4]
  exact padZeros_inj 6 h5

theorem listStartsWith_append (xs ys : List Char) :
    listStartsWith (xs ++ ys) xs = true := by
  induction xs with
  | nil => cases ys <;> rfl
  | cons a as ih => simp [listStartsWith, ih]

theorem tmpMatch_tmpName (name : String) (i : Nat) :
    tmpMatch name (tmpName name i) = true := by
  unfold tmpMatch tmpName
  simp only [String.data_append, List.append_assoc]
  have h1 : listStartsWith
      (("tmp_".data ++ (name.data ++ ("_".data ++ ((padZeros 6 i).data ++ ".parquet".data)))))
      ("tmp_".data ++ (name.data ++ "_".data)) = true := by
    have := listStartsWith_append ("tmp_".data ++ (name.data ++ "_".data))
      ((padZeros 6 i).data ++ ".parquet".data)
    simpa [List.append_assoc] using this
  have h2 : listStartsWith
      (("tmp_".data ++ (name.data ++ ("_".data ++ ((padZeros 6 i).data ++ ".parquet".data))))).reverse
      ".parquet".data.reverse = true := by
    have := listStartsWith_append ".parquet".data.reverse
      (((padZeros 6 i).data.reverse ++ ("_".data.reverse ++ (name.data.reverse ++ "tmp_".data.reverse))))
    simpa [List.reverse_append, List.append_assoc] using this
  simp only [h1, h2, List.length_append, Bool.true_and]
  simp [List.length_reverse]
  omega

/-- The canonical artifact name never matches the temp-segment glob (the
pattern is strictly longer). -/
theorem tmpMatch_artifact_false (name : String) :
    tmpMatch name (name ++ ".parquet") = false := by
  have hlen : ¬(("tmp_" ++ name ++ "_").data.length + (".parquet" : String).data.length ≤
      (name ++ ".parquet").data.length) := by
    simp [String.data_append]
    omega
  simp only [tmpMatch]
  rw [decide_eq_false hlen]
  simp

/-! ## Lemmas: the file-system model -/

theorem assocLookup_append_none {α : Type} {a : List (String × α)}
    (b : List (String × α)) {k : String} (h : assocLookup a k = none) :
    assocLookup (a ++ b) k = assocLookup b k := by
  induction a with
  | nil => rfl
  | cons e rest ih =>
      rw [assocLookup] at h
      by_cases he : e.1 = k
      · rw [if_pos he] at h
        exact absurd h (by simp)
      · rw [if_neg he] at h
        cases e with
        | mk p v =>
            simp only [List.cons_append, assocLookup, if_neg he]
            exact ih h

theorem assocLookup_of_keys {α : Type} {l : List (String × α)} {k : String}
    (h : ∀ e ∈ l, e.1 ≠ k) : assocLookup l k = none := by
  induction l with
  | nil => rfl
  | cons e rest ih =>
      cases e with
      | mk p v =>
          have hp : p ≠ k := h (p, v) (by simp)
          simp only [assocLookup, if_neg hp]
          exact ih (fun e he => h e (by simp [he]))

theorem fsLookup_removeMatching_true {fs : FileSys} {pat : String → Bool}
    {p : String} (h : pat p = true) :
    fsLookup (fsRemoveMatching fs pat) p = none := by
  apply assocLookup_of_keys
  intro e he heq
  unfold fsRemoveMatching at he
  have := List.of_mem_filter he
  rw [heq, h] at this
  simp at this

theorem assocLookup_cons {α : Type} (q : String) (v : α) (rest : List (String × α))
    (p : String) :
    assocLookup ((q, v) :: rest) p = if q = p then some v else assocLookup rest p :=
  rfl

theorem fsLookup_cons (q : String) (v : PFile) (rest : FileSys) (p : String) :
    fsLookup ((q, v) :: rest) p = if q = p then some v else fsLookup rest p :=
  rfl

theorem fsRemoveMatching_cons_true {pat : String → Bool} {q : String}
    (v : PFile) (rest : FileSys) (h : pat q = true) :
    fsRemoveMatching ((q, v) :: rest) pat = fsRemoveMatching rest pat := by
  simp [fsRemoveMatching, List.filter_cons, h]

theorem fsRemoveMatching_cons_false {pat : String → Bool} {q : String}
    (v : PFile) (rest : FileSys) (h : pat q = false) :
    fsRemoveMatching ((q, v) :: rest) pat = (q, v) :: fsRemoveMatching rest pat := by
  simp [fsRemoveMatching, List.filter_cons, h]

theorem fsWrite_cons (q : String) (w : PFile) (rest : FileSys) (p : String)
    (v : PFile) :
    fsWrite ((q, w) :: rest) p v =
      if q = p then (q, v) :: rest else (q, w) :: fsWrite rest p v :=
  rfl

theorem fsLookup_removeMatching_false {fs : FileSys} {pat : String → Bool}
    {p : String} (h : pat p = false) :
    fsLookup (fsRemoveMatching fs pat) p = fsLookup fs p := by
  induction fs with
  | nil => rfl
  | cons e rest ih =>
      obtain ⟨q, v⟩ := e
      by_cases hq : pat q = true
      · have hqp : q ≠ p := by
          intro he
          rw [he, h] at hq
          cases hq
        rw [fsRemoveMatching_cons_true v rest hq, fsLookup_cons, if_neg hqp]
        exact ih
      · have hq' : pat q = false := by
          cases hqb : pat q
          · rfl
          · exact absurd hqb hq
        rw [fsRemoveMatching_cons_false v rest hq', fsLookup_cons, fsLookup_cons]
        by_cases hqp : q = p
        · rw [if_pos hqp, if_pos hqp]
        · rw [if_neg hqp, if_neg hqp]
          exact ih

theorem fsGlob_removeMatching (fs : FileSys) (pat : String → Bool) :
    fsGlob (fsRemoveMatching fs pat) pat = [] := by
  unfold fsGlob fsRemoveMatching
  rw [List.filter_filter]
  apply List.filter_eq_nil_iff.mpr
  intro e _
  cases h : pat e.1 <;> simp [h]

theorem fsGlob_append (a b : FileSys) (pat : String → Bool) :
    fsGlob (a ++ b) pat = fsGlob a pat ++ fsGlob b pat :=
  List.filter_append _ _

theorem fsGlob_all_true {l : FileSys} {pat : String → Bool}
    (h : ∀ e ∈ l, pat e.1 = true) : fsGlob l pat = l :=
  List.filter_eq_self.mpr h

theorem fsLookup_write_self (fs : FileSys) (p : String) (v : PFile) :
    fsLookup (fsWrite fs p v) p = some v := by
  induction fs with
  | nil => simp [fsWrite, fsLookup_cons]
  | cons e rest ih =>
      obtain ⟨q, w⟩ := e
      rw [fsWrite_cons]
      by_cases hq : q = p
      · rw [if_pos hq, fsLookup_cons, if_pos hq]
      · rw [if_neg hq, fsLookup_cons, if_neg hq]
        exact ih

theorem fsLookup_write_ne (fs : FileSys) {p q : String} (v : PFile)
    (h : q ≠ p) : fsLookup (fsWrite fs p v) q = fsLookup fs q := by
  have hpq : p ≠ q := fun he => h he.symm
  induction fs with
  | nil => simp [fsWrite, fsLookup_cons, if_neg hpq]
  | cons e rest ih =>
      obtain ⟨r, w⟩ := e
      rw [fsWrite_cons]
      by_cases hr : r = p
      · rw [if_pos hr, fsLookup_cons, fsLookup_cons]
        have hrq : r ≠ q := by rw [hr]; exact hpq
        rw [if_neg hrq, if_neg hrq]
      · rw [if_neg hr, fsLookup_cons, fsLookup_cons]
        by_cases hrq : r = q
        · rw [if_pos hrq, if_pos hrq]
        · rw [if_neg hrq, if_neg hrq]
          exact ih

theorem fsWrite_absent {fs : FileSys} {p : String} (v : PFile)
    (h : fsLookup fs p = none) : fsWrite fs p v = fs ++ [(p, v)] := by
  induction fs with
  | nil => rfl
  | cons e rest ih =>
      obtain ⟨q, w⟩ := e
      rw [fsLookup_cons] at h
      by_cases hq : q = p
      · rw [if_pos hq] at h
        exact absurd h (by simp)
      · rw [if_neg hq] at h
        rw [fsWrite_cons, if_neg hq]
        simp only [List.cons_append, List.cons.injEq, true_and]
        exact ih h

/-! ## Lemmas: segment writing and concatenation -/

theorem segsList_map_snd (name : String) :
    ∀ (i : Nat) (bs : List PFile), (segsList name i bs).map Prod.snd = bs := by
  intro i bs
  induction bs generalizing i with
  | nil => rfl
  | cons b rest ih => simp [segsList, ih]

theorem segsList_mem_pat (name : String) :
    ∀ (i : Nat) (bs : List PFile) (e : String × PFile),
      e ∈ segsList name i bs → tmpMatch name e.1 = true := by
  intro i bs
  induction bs generalizing i with
  | nil => intro e he; cases he
  | cons b rest ih =>
      intro e he
      rw [segsList] at he
      rcases List.mem_cons.mp he with h | h
      · rw [h]
        exact tmpMatch_tmpName name i
      · exact ih (i + 1) e h

theorem writeSegs_eq (name : String) (batches : List PFile) :
    ∀ (fs : FileSys) (i : Nat),
      (∀ j, i ≤ j → fsLookup fs (tmpName name j) = none) →
      writeSegs name fs i batches =
        (fs ++ segsList name i batches,
         (batches.map (fun b => b.rows.length)).sum) := by
  induction batches with
  | nil => intro fs i _; simp [writeSegs, segsList]
  | cons b bs ih =>
      intro fs i h
      have hw : fsWrite fs (tmpName name i) b = fs ++ [(tmpName name i, b)] :=
        fsWrite_absent b (h i (Nat.le_refl i))
      have hnext : ∀ j, i + 1 ≤ j →
          fsLookup (fs ++ [(tmpName name i, b)]) (tmpName name j) = none := by
        intro j hj
        have hne : tmpName name i ≠ tmpName name j :=
          fun he => absurd (tmpName_inj name he) (by omega)
        show assocLookup _ _ = none
        rw [assocLookup_append_none _ (h j (by omega)), assocLookup_cons,
          if_neg hne]
        rfl
      rw [writeSegs, hw, ih _ (i + 1) hnext]
      simp [segsList, List.append_assoc]

theorem concatSegs_segsList (name : String) (c : List String) (i : Nat)
    (b0 : PFile) (bs : List PFile) (h0 : b0.cols = c)
    (hb : ∀ b ∈ bs, b.cols = c) :
    concatSegs (segsList name i (b0 :: bs)) =
      .ok ⟨c, ((b0 :: bs).map (fun b => b.rows)).flatten⟩ := by
  rw [segsList, concatSegs]
  have hall : (segsList name (i + 1) bs).all (fun e => decide (e.2.cols = b0.cols)) = true := by
    rw [List.all_eq_true]
    intro e he
    have : e.2 ∈ bs := by
      have := List.mem_map_of_mem Prod.snd he
      rwa [segsList_map_snd] at this
    rw [decide_eq_true_eq, hb e.2 this, h0]
  rw [if_pos hall]
  have hrows : (segsList name (i + 1) bs).map (fun e => e.2.rows) = bs.map (fun b => b.rows) := by
    have := congrArg (List.map (fun b : PFile => b.rows)) (segsList_map_snd name (i + 1) bs)
    rwa [List.map_map] at this
  rw [hrows, h0]
  simp

/-! ## Lemmas: the whole reader-to-parquet pipeline -/

/-- Full characterization of a successful `read_csv_semicolon_to_parquet`
run: stale segments are dropped, fresh segments are written, their
concatenation is written to the canonical artifact, segments are
removed. -/
theorem read_csv_ok_eq (parse : PdParser) (fobj : ByteStream) (name : String)
    (chunksize : Nat) (fs : FileSys) (batches : List PFile) (c : List String)
    (hit : (_read_csv_iterator parse chunksize fobj).2 = .ok ⟨batches, none⟩)
    (hnz : (batches.map (fun b => b.rows.length)).sum ≠ 0)
    (hc : ∀ b ∈ batches, b.cols = c) :
    read_csv_semicolon_to_parquet parse fobj name chunksize fs =
      (fsRemoveMatching
        (fsWrite (fsRemoveMatching fs (tmpMatch name) ++ segsList name 0 batches)
          (name ++ ".parquet")
          ⟨c, (batches.map (fun b => b.rows)).flatten⟩)
        (tmpMatch name),
       .ok (name ++ ".parquet")) := by
  have h0 : ∀ j, 0 ≤ j →
      fsLookup (fsRemoveMatching fs (tmpMatch name)) (tmpName name j) = none :=
    fun j _ => fsLookup_removeMatching_true (tmpMatch_tmpName name j)
  cases batches with
  | nil => simp at hnz
  | cons b0 bs =>
      have hglob : fsGlob
          (fsRemoveMatching fs (tmpMatch name) ++ segsList name 0 (b0 :: bs))
          (tmpMatch name) = segsList name 0 (b0 :: bs) := by
        rw [fsGlob_append, fsGlob_removeMatching,
          fsGlob_all_true (segsList_mem_pat name 0 _), List.nil_append]
      have hcat := concatSegs_segsList name c 0 b0 bs
        (hc b0 (by simp)) (fun b hb => hc b (by simp [hb]))
      simp only [read_csv_semicolon_to_parquet, hit,
        writeSegs_eq name (b0 :: bs) _ 0 h0, hglob, hcat]
      rw [if_neg hnz]

/-! ## Lemmas: the archive payload selector -/

theorem maxBySize_mem (l : List ZipEntry) :
    ∀ best, maxBySize best l = best ∨ maxBySize best l ∈ l := by
  induction l with
  | nil => intro best; left; rfl
  | cons a as ih =>
      intro best
      rw [maxBySize]
      rcases ih (if a.file_size > best.file_size then a else best) with h | h
      · by_cases hc : a.file_size > best.file_size
        · right
          rw [h, if_pos hc]
          exact List.mem_cons_self a as
        · left
          rw [h, if_neg hc]
      · right
        exact List.mem_cons_of_mem a h

theorem maxBySize_le (l : List ZipEntry) :
    ∀ best m, m ∈ best :: l → m.file_size ≤ (maxBySize best l).file_size := by
  induction l with
  | nil =>
      intro best m hm
      rcases List.mem_cons.mp hm with h | h
      · rw [h, maxBySize]
      · cases h
  | cons a as ih =>
      intro best m hm
      rw [maxBySize]
      have hbest : best.file_size ≤
          (if a.file_size > best.file_size then a else best).file_size := by
        by_cases hc : a.file_size > best.file_size
        · rw [if_pos hc]; omega
        · rw [if_neg hc]
      have ha : a.file_size ≤
          (if a.file_size > best.file_size then a else best).file_size := by
        by_cases hc : a.file_size > best.file_size
        · rw [if_pos hc]
        · rw [if_neg hc]; omega
      have hnb := ih (if a.file_size > best.file_size then a else best)
      rcases List.mem_cons.mp hm with h | h
      · calc m.file_size = best.file_size := by rw [h]
          _ ≤ _ := hbest
          _ ≤ _ := hnb _ (List.mem_cons_self _ _)
      · rcases List.mem_cons.mp h with h' | h'
        · calc m.file_size = a.file_size := by rw [h']
            _ ≤ _ := ha
            _ ≤ _ := hnb _ (List.mem_cons_self _ _)
        · exact hnb m (List.mem_cons_of_mem _ h')

/-! ## Claims about the archive payload selector -/

/-- C5: for an archive with no non-directory entries the selector fails
with the empty-archive error; for an archive with at least one
non-directory entry and no supplied keyword matching any entry name, it
returns an entry whose uncompressed size is the maximum uncompressed
size over all non-directory entries. -/
theorem c5_selector_returns_largest (entries : List ZipEntry)
    (kws : Option (List (List Char))) :
    (entries.filter (fun m => !m.isDir) = [] →
      _choose_zip_member entries kws =
        .error "FileNotFoundError: Nenhum arquivo elegível dentro do ZIP.") ∧
    (∀ m0 rest, entries.filter (fun m => !m.isDir) = m0 :: rest →
      (∀ ks, kws = some ks →
        ∀ m ∈ m0 :: rest, entryMatches (ks.map lowerStr) m = false) →
      ∃ r, _choose_zip_member entries kws = .ok r ∧ r ∈ m0 :: rest ∧
        ∀ m ∈ m0 :: rest, m.file_size ≤ r.file_size) := by
  constructor
  · intro h
    simp only [_choose_zip_member, h]
  · intro m0 rest h hnm
    have hfb : ∃ r, Except.ok (ε := String) (maxBySize m0 rest) = .ok r ∧
        r ∈ m0 :: rest ∧ ∀ m ∈ m0 :: rest, m.file_size ≤ r.file_size := by
      refine ⟨maxBySize m0 rest, rfl, ?_, maxBySize_le rest m0⟩
      rcases maxBySize_mem rest m0 with he | he
      · rw [he]; exact List.mem_cons_self _ _
      · exact List.mem_cons_of_mem _ he
    cases kws with
    | none =>
        simp only [_choose_zip_member, h]
        exact hfb
    | some ks =>
        cases ks with
        | nil =>
            simp only [_choose_zip_member, h]
            exact hfb
        | cons k kr =>
            have hfil : (m0 :: rest).filter
                (entryMatches ((k :: kr).map lowerStr)) = [] := by
              apply List.filter_eq_nil_iff.mpr
              intro m hm
              rw [hnm (k :: kr) rfl m hm]
              simp
            simp only [_choose_zip_member, h, hfil]
            exact hfb

/-- C5 witness: a directories-only archive fails; in a two-entry archive
with no keywords the 9-byte entry is selected over the 1-byte one. -/
theorem c5_witness :
    (_choose_zip_member [⟨['d'], 5, true⟩] none =
      .error "FileNotFoundError: Nenhum arquivo elegível dentro do ZIP.") ∧
    (∃ r, _choose_zip_member [⟨['a'], 1, false⟩, ⟨['b'], 9, false⟩] none = .ok r ∧
      r ∈ [⟨['a'], 1, false⟩, ⟨['b'], 9, false⟩] ∧
      ∀ m ∈ [ZipEntry.mk ['a'] 1 false, ZipEntry.mk ['b'] 9 false],
        m.file_size ≤ r.file_size) := by
  constructor
  · exact (c5_selector_returns_largest [⟨['d'], 5, true⟩] none).1 (by decide)
  · exact (c5_selector_returns_largest [⟨['a'], 1, false⟩, ⟨['b'], 9, false⟩] none).2
      ⟨['a'], 1, false⟩ [⟨['b'], 9, false⟩] (by decide)
      (fun ks h => by cases h)

/-- C6: whenever some non-directory entry's name contains one of the
supplied keywords (case-insensitively), the selector returns an entry
from the matching subset — never a non-matching one. -/
theorem c6_selector_prefers_keyword_matches (entries : List ZipEntry)
    (ks : List (List Char)) (m : ZipEntry) (hm : m ∈ entries)
    (hd : m.isDir = false)
    (hmatch : entryMatches (ks.map lowerStr) m = true) :
    ∃ r, _choose_zip_member entries (some ks) = .ok r ∧
      r.isDir = false ∧ entryMatches (ks.map lowerStr) r = true := by
  have hmem : m ∈ entries.filter (fun m => !m.isDir) :=
    List.mem_filter.mpr ⟨hm, by rw [hd]; rfl⟩
  cases hfl : entries.filter (fun m => !m.isDir) with
  | nil => rw [hfl] at hmem; cases hmem
  | cons m0 rest =>
      rw [hfl] at hmem
      cases ks with
      | nil =>
          rw [entryMatches] at hmatch
          simp at hmatch
      | cons k kr =>
          have hbymem : m ∈ (m0 :: rest).filter
              (entryMatches ((k :: kr).map lowerStr)) :=
            List.mem_filter.mpr ⟨hmem, hmatch⟩
          cases hby : (m0 :: rest).filter (entryMatches ((k :: kr).map lowerStr)) with
          | nil => rw [hby] at hbymem; cases hbymem
          | cons b0 bs =>
              rw [hby] at hbymem
              refine ⟨maxBySize b0 bs, ?_, ?_, ?_⟩
              · simp only [_choose_zip_member, hfl, hby]
              · have hrmem : maxBySize b0 bs ∈ (m0 :: rest).filter
                    (entryMatches ((k :: kr).map lowerStr)) := by
                  rw [hby]
                  rcases maxBySize_mem bs b0 with he | he
                  · rw [he]; exact List.mem_cons_self _ _
                  · exact List.mem_cons_of_mem _ he
                have hinmembers := (List.mem_filter.mp hrmem).1
                have := (List.mem_filter.mp (hfl ▸ hinmembers : maxBySize b0 bs ∈ entries.filter (fun m => !m.isDir))).2
                simpa using this
              · exact (List.mem_filter.mp (by
                  rw [hby]
                  rcases maxBySize_mem bs b0 with he | he
                  · rw [he]; exact List.mem_cons_self _ _
                  · exact List.mem_cons_of_mem _ he)).2

/-- C6 witness: with keyword `b`, the small matching entry `ab` is
selected over the large non-matching entry `r`. -/
theorem c6_witness :
    ∃ r, _choose_zip_member
        [⟨['r'], 100, false⟩, ⟨['a', 'b'], 5, false⟩] (some [['b']]) = .ok r ∧
      r.isDir = false ∧ entryMatches ([['b']].map lowerStr) r = true :=
  c6_selector_prefers_keyword_matches
    [⟨['r'], 100, false⟩, ⟨['a', 'b'], 5, false⟩] [['b']]
    ⟨['a', 'b'], 5, false⟩ (by decide) (by decide) (by decide)

/-! ## Lemmas: the table registrar -/

theorem assocLookup_set_self {α : Type} (l : List (String × α)) (k : String)
    (v : α) : assocLookup (assocSet l k v) k = some v := by
  induction l with
  | nil => simp [assocSet, assocLookup]
  | cons e rest ih =>
      obtain ⟨q, w⟩ := e
      rw [assocSet]
      by_cases hq : q = k
      · rw [if_pos hq, assocLookup_cons, if_pos hq]
      · rw [if_neg hq, assocLookup_cons, if_neg hq]
        exact ih

theorem tableLookup_setTable_self (db : DB) (name : String) (t : Table) :
    tableLookup (setTable db name t) name = some t :=
  assocLookup_set_self db.tables name t

theorem tableLookup_dropTable (db : DB) (name : String) :
    tableLookup (dropTable db name) name = none := by
  apply assocLookup_of_keys
  intro e he
  have := List.of_mem_filter he
  simpa using this

/-- What `ensure_table_from_parquet` with `replace=True` does when the
artifact exists: drop, recreate empty with the artifact's schema, then
insert all the artifact's rows. -/
theorem ensure_replace_eq (fs : FileSys) (db : DB) (name path : String)
    (artifact : PFile) (h : fsLookup fs path = some artifact) :
    ensure_table_from_parquet fs db name path true =
      (setTable (setTable (dropTable db name) name ⟨artifact.cols, []⟩) name
        ⟨artifact.cols, artifact.rows⟩, .ok ()) := by
  have hdrop := tableLookup_dropTable db name
  have hset := tableLookup_setTable_self (dropTable db name) name
    (⟨artifact.cols, []⟩ : Table)
  simp [ensure_table_from_parquet, h, hdrop, hset]

/-- The split form: success and final table contents. -/
theorem ensure_replace_spec (fs : FileSys) (db : DB) (name path : String)
    (artifact : PFile) (h : fsLookup fs path = some artifact) :
    (ensure_table_from_parquet fs db name path true).2 = .ok () ∧
    tableLookup (ensure_table_from_parquet fs db name path true).1 name =
      some ⟨artifact.cols, artifact.rows⟩ := by
  rw [ensure_replace_eq fs db name path artifact h]
  exact ⟨rfl, tableLookup_setTable_self _ name _⟩

/-! ## Claims about the table registrar -/

/-- C1: after `ensure_table_from_parquet(name, artifact, replace=True)`
succeeds, the table's rows exactly equal the artifact's contents, and a
second identical run leaves the same table (same schema and row count)
as a single run. -/
theorem c1_replace_exact_and_idempotent (fs : FileSys) (db : DB)
    (name path : String) (artifact : PFile)
    (h : fsLookup fs path = some artifact) :
    (ensure_table_from_parquet fs db name path true).2 = .ok () ∧
    tableLookup (ensure_table_from_parquet fs db name path true).1 name =
      some ⟨artifact.cols, artifact.rows⟩ ∧
    tableLookup (ensure_table_from_parquet fs
        (ensure_table_from_parquet fs db name path true).1 name path true).1 name =
      tableLookup (ensure_table_from_parquet fs db name path true).1 name := by
  obtain ⟨h1, h2⟩ := ensure_replace_spec fs db name path artifact h
  obtain ⟨h1', h2'⟩ := ensure_replace_spec fs
    (ensure_table_from_parquet fs db name path true).1 name path artifact h
  exact ⟨h1, h2, by rw [h2, h2']⟩

/-- C1 witness: a one-row artifact replaces a stale two-row table. -/
theorem c1_witness :
    (fsLookup [("t.parquet", ⟨["c"], [["v"]]⟩)] "t.parquet" =
      some ⟨["c"], [["v"]]⟩) ∧
    (ensure_table_from_parquet [("t.parquet", ⟨["c"], [["v"]]⟩)]
      ⟨[("t", ⟨["c"], [["x"], ["y"]]⟩)], none⟩ "t" "t.parquet" true).2 = .ok () ∧
    tableLookup (ensure_table_from_parquet [("t.parquet", ⟨["c"], [["v"]]⟩)]
      ⟨[("t", ⟨["c"], [["x"], ["y"]]⟩)], none⟩ "t" "t.parquet" true).1 "t" =
      some ⟨["c"], [["v"]]⟩ := by
  have h := c1_replace_exact_and_idempotent [("t.parquet", ⟨["c"], [["v"]]⟩)]
    ⟨[("t", ⟨["c"], [["x"], ["y"]]⟩)], none⟩ "t" "t.parquet" ⟨["c"], [["v"]]⟩
    (by decide)
  exact ⟨by decide, h.1, h.2.1⟩

/-- C10: with `replace=False` and an existing table of matching arity,
the artifact's rows are appended: the final row count is the prior row
count plus the artifact's row count (re-running without the replace
flag duplicates rows). -/
theorem c10_append_without_replace (fs : FileSys) (db : DB)
    (name path : String) (artifact : PFile) (t : Table)
    (hart : fsLookup fs path = some artifact)
    (htab : tableLookup db name = some t)
    (hlen : t.cols.length = artifact.cols.length) :
    (ensure_table_from_parquet fs db name path false).2 = .ok () ∧
    tableLookup (ensure_table_from_parquet fs db name path false).1 name =
      some ⟨t.cols, t.rows ++ artifact.rows⟩ ∧
    (t.rows ++ artifact.rows).length = t.rows.length + artifact.rows.length := by
  have heq : ensure_table_from_parquet fs db name path false =
      (setTable db name ⟨t.cols, t.rows ++ artifact.rows⟩, .ok ()) := by
    simp [ensure_table_from_parquet, hart, htab, hlen]
  rw [heq]
  exact ⟨rfl, tableLookup_setTable_self _ name _, List.length_append _ _⟩

/-- C10 witness: inserting a one-row artifact into an existing one-row
table without `replace` yields two rows. -/
theorem c10_witness :
    (fsLookup [("t.parquet", ⟨["c"], [["v"]]⟩)] "t.parquet" =
      some ⟨["c"], [["v"]]⟩) ∧
    (tableLookup ⟨[("t", ⟨["c"], [["x"]]⟩)], none⟩ "t" = some ⟨["c"], [["x"]]⟩) ∧
    tableLookup (ensure_table_from_parquet [("t.parquet", ⟨["c"], [["v"]]⟩)]
      ⟨[("t", ⟨["c"], [["x"]]⟩)], none⟩ "t" "t.parquet" false).1 "t" =
      some ⟨["c"], [["x"], ["v"]]⟩ := by
  have h := c10_append_without_replace [("t.parquet", ⟨["c"], [["v"]]⟩)]
    ⟨[("t", ⟨["c"], [["x"]]⟩)], none⟩ "t" "t.parquet" ⟨["c"], [["v"]]⟩
    ⟨["c"], [["x"]]⟩ (by decide) (by decide) (by decide)
  exact ⟨by decide, by decide, h.2.1⟩

/-! ## Claim about the ingestion catalog -/

/-- C9: `add_to_catalog` appends exactly one entry carrying the given
timestamp; prior entries are preserved unchanged; a failed row count
(absent artifact) still appends the entry, with a null count; the live
tables are untouched. -/
theorem c9_catalog_appends_one_entry (fs : FileSys) (db : DB)
    (dataset month_ref path : String) (src : Option String) (now : Nat) :
    (∀ l, db.catalog = some l →
      (add_to_catalog fs db dataset month_ref path src now).catalog =
        some (l ++ [⟨dataset, month_ref, src.getD "", path,
          _count_rows_in_parquet fs path, now⟩])) ∧
    (db.catalog = none →
      (add_to_catalog fs db dataset month_ref path src now).catalog =
        some [⟨dataset, month_ref, src.getD "", path,
          _count_rows_in_parquet fs path, now⟩]) ∧
    (add_to_catalog fs db dataset month_ref path src now).tables = db.tables ∧
    (fsLookup fs path = none → _count_rows_in_parquet fs path = none) := by
  refine ⟨?_, ?_, ?_, ?_⟩
  · intro l hl
    simp [add_to_catalog, _ensure_catalog, hl]
  · intro hl
    simp [add_to_catalog, _ensure_catalog, hl]
  · cases hl : db.catalog <;> simp [add_to_catalog, _ensure_catalog, hl]
  · intro hl
    simp [_count_rows_in_parquet, hl]

/-- C9 witness: appending to a one-entry catalog whose artifact is
missing yields two entries, the new one with a null row count. -/
theorem c9_witness :
    ((⟨[], some [⟨"d0", "2025-05", "", "d0.parquet", some 1, 7⟩]⟩ : DB).catalog =
      some [⟨"d0", "2025-05", "", "d0.parquet", some 1, 7⟩]) ∧
    (fsLookup [] "d.parquet" = none) ∧
    (add_to_catalog [] ⟨[], some [⟨"d0", "2025-05", "", "d0.parquet", some 1, 7⟩]⟩
        "d" "2025-06" "d.parquet" none 9).catalog =
      some [⟨"d0", "2025-05", "", "d0.parquet", some 1, 7⟩,
        ⟨"d", "2025-06", "", "d.parquet", none, 9⟩] := by
  have h := c9_catalog_appends_one_entry [] ⟨[], some [⟨"d0", "2025-05", "", "d0.parquet", some 1, 7⟩]⟩
    "d" "2025-06" "d.parquet" none 9
  refine ⟨rfl, rfl, ?_⟩
  have h2 := h.1 [⟨"d0", "2025-05", "", "d0.parquet", some 1, 7⟩] rfl
  simpa using h2

/-! ## Claim about the chunked reader's encoding fallback -/

/-- C7: when the parser reports a decode failure under the primary
encoding (latin-1) on a seekable stream but parses it under the
secondary encoding (utf-8), the reader rewinds the stream, retries, and
returns the utf-8 parse with no exception. -/
theorem c7_decoding_fallback (parse : PdParser) (data : List Nat)
    (chunksize : Nat) (it : ChunkIter)
    (h1 : parse .latin1 chunksize data = .error .unicodeDecode)
    (h2 : parse .utf8 chunksize data = .ok it) :
    _read_csv_iterator parse chunksize ⟨data, 0, true⟩ =
      (⟨data, data.length, true⟩, .ok it) := by
  simp [_read_csv_iterator, streamRest, h1, h2]

/-- C7 witness: a two-byte stream whose latin-1 parse fails and whose
utf-8 parse yields one batch. -/
theorem c7_witness :
    ((fun e (_ : Nat) (_ : List Nat) =>
        match e with
        | Encoding.latin1 => Except.error PdErr.unicodeDecode
        | Encoding.utf8 => Except.ok (ChunkIter.mk [⟨["c"], [["v"]]⟩] none))
      Encoding.latin1 3 [0, 1] = .error .unicodeDecode) ∧
    ((fun e (_ : Nat) (_ : List Nat) =>
        match e with
        | Encoding.latin1 => Except.error PdErr.unicodeDecode
        | Encoding.utf8 => Except.ok (ChunkIter.mk [⟨["c"], [["v"]]⟩] none))
      Encoding.utf8 3 [0, 1] = .ok ⟨[⟨["c"], [["v"]]⟩], none⟩) ∧
    _read_csv_iterator
      (fun e (_ : Nat) (_ : List Nat) =>
        match e with
        | Encoding.latin1 => Except.error PdErr.unicodeDecode
        | Encoding.utf8 => Except.ok (ChunkIter.mk [⟨["c"], [["v"]]⟩] none))
      3 ⟨[0, 1], 0, true⟩ =
      (⟨[0, 1], 2, true⟩, .ok ⟨[⟨["c"], [["v"]]⟩], none⟩) :=
  ⟨rfl, rfl,
    c7_decoding_fallback
      (fun e (_ : Nat) (_ : List Nat) =>
        match e with
        | Encoding.latin1 => Except.error PdErr.unicodeDecode
        | Encoding.utf8 => Except.ok (ChunkIter.mk [⟨["c"], [["v"]]⟩] none))
      [0, 1] 3 ⟨[⟨["c"], [["v"]]⟩], none⟩ rfl rfl⟩

/-! ## Claims about crash recovery and the empty-input guard -/

/-- C3: a run over any prior file-system state — stale temp segments
from a crashed run included — produces an artifact holding exactly the
freshly parsed rows, and leaves no file matching the temp pattern. -/
theorem c3_stale_segments_never_reach_artifact (parse : PdParser)
    (fobj : ByteStream) (name : String) (chunksize : Nat) (fs : FileSys)
    (batches : List PFile) (c : List String)
    (hit : (_read_csv_iterator parse chunksize fobj).2 = .ok ⟨batches, none⟩)
    (hnz : (batches.map (fun b => b.rows.length)).sum ≠ 0)
    (hc : ∀ b ∈ batches, b.cols = c) :
    ∃ fs', read_csv_semicolon_to_parquet parse fobj name chunksize fs =
        (fs', .ok (name ++ ".parquet")) ∧
      fsLookup fs' (name ++ ".parquet") =
        some ⟨c, (batches.map (fun b => b.rows)).flatten⟩ ∧
      fsGlob fs' (tmpMatch name) = [] := by
  refine ⟨_, read_csv_ok_eq parse fobj name chunksize fs batches c hit hnz hc,
    ?_, fsGlob_removeMatching _ _⟩
  rw [fsLookup_removeMatching_false (tmpMatch_artifact_false name),
    fsLookup_write_self]

/-- C3 witness: a stale segment `tmp_x_000123.parquet` is present before
the run and its row does not appear in the produced artifact. -/
theorem c3_witness :
    ((_read_csv_iterator (fun _ _ _ => .ok ⟨[⟨["a"], [["1"]]⟩], none⟩)
        1 ⟨[], 0, true⟩).2 = .ok ⟨[⟨["a"], [["1"]]⟩], none⟩) ∧
    (([⟨["a"], [["1"]]⟩] : List PFile).map (fun b => b.rows.length)).sum ≠ 0 ∧
    (∀ b ∈ ([⟨["a"], [["1"]]⟩] : List PFile), b.cols = ["a"]) ∧
    (∃ fs', read_csv_semicolon_to_parquet
        (fun _ _ _ => .ok ⟨[⟨["a"], [["1"]]⟩], none⟩) ⟨[], 0, true⟩ "x" 1
        [("tmp_x_000123.parquet", ⟨["a"], [["stale"]]⟩)] =
        (fs', .ok ("x" ++ ".parquet")) ∧
      fsLookup fs' ("x" ++ ".parquet") =
        some ⟨["a"], (([⟨["a"], [["1"]]⟩] : List PFile).map (fun b => b.rows)).flatten⟩ ∧
      fsGlob fs' (tmpMatch "x") = []) :=
  ⟨rfl, by decide, by decide,
    c3_stale_segments_never_reach_artifact
      (fun _ _ _ => .ok ⟨[⟨["a"], [["1"]]⟩], none⟩) ⟨[], 0, true⟩ "x" 1
      [("tmp_x_000123.parquet", ⟨["a"], [["stale"]]⟩)]
      [⟨["a"], [["1"]]⟩] ["a"] rfl (by decide) (by decide)⟩

theorem assocLookup_append_some {α : Type} {a : List (String × α)}
    (b : List (String × α)) {k : String} {v : α}
    (h : assocLookup a k = some v) : assocLookup (a ++ b) k = some v := by
  induction a with
  | nil => cases h
  | cons e rest ih =>
      obtain ⟨q, w⟩ := e
      rw [assocLookup_cons] at h
      rw [List.cons_append, assocLookup_cons]
      by_cases hq : q = k
      · rwa [if_pos hq] at h ⊢
      · rw [if_neg hq] at h ⊢
        exact ih h

/-- After the cleanup-then-write-segments phase, the canonical artifact
path is bound exactly as it was before the run. -/
theorem fsLookup_artifact_after_segs (fs : FileSys) (name : String)
    (batches : List PFile) :
    fsLookup (fsRemoveMatching fs (tmpMatch name) ++ segsList name 0 batches)
      (name ++ ".parquet") = fsLookup fs (name ++ ".parquet") := by
  have hnm := tmpMatch_artifact_false name
  cases hl : fsLookup (fsRemoveMatching fs (tmpMatch name)) (name ++ ".parquet") with
  | some v =>
      have hL : fsLookup (fsRemoveMatching fs (tmpMatch name) ++
          segsList name 0 batches) (name ++ ".parquet") = some v :=
        assocLookup_append_some _ hl
      rw [hL, ← @fsLookup_removeMatching_false fs (tmpMatch name) _ hnm, hl]
  | none =>
      have hL : fsLookup (fsRemoveMatching fs (tmpMatch name) ++
          segsList name 0 batches) (name ++ ".parquet") =
          assocLookup (segsList name 0 batches) (name ++ ".parquet") :=
        assocLookup_append_none _ hl
      have hseg : assocLookup (segsList name 0 batches) (name ++ ".parquet") = none := by
        apply assocLookup_of_keys
        intro e he heq
        have := segsList_mem_pat name 0 batches e he
        rw [heq, hnm] at this
        cases this
      rw [hL, hseg, ← @fsLookup_removeMatching_false fs (tmpMatch name) _ hnm, hl]

/-- The empty-input failure: the run raises the `ValueError` after the
(empty) segment phase, writing no artifact. -/
theorem read_csv_empty_eq (parse : PdParser) (fobj : ByteStream)
    (name : String) (chunksize : Nat) (fs : FileSys) (batches : List PFile)
    (hit : (_read_csv_iterator parse chunksize fobj).2 = .ok ⟨batches, none⟩)
    (hz : (batches.map (fun b => b.rows.length)).sum = 0) :
    read_csv_semicolon_to_parquet parse fobj name chunksize fs =
      (fsRemoveMatching fs (tmpMatch name) ++ segsList name 0 batches,
       .error "ValueError: Nenhum chunk lido do CSV.") := by
  have h0 : ∀ j, 0 ≤ j →
      fsLookup (fsRemoveMatching fs (tmpMatch name)) (tmpName name j) = none :=
    fun j _ => fsLookup_removeMatching_true (tmpMatch_tmpName name j)
  simp only [read_csv_semicolon_to_parquet, hit,
    writeSegs_eq name batches _ 0 h0, hz]
  rfl

/-- C4: an upload whose parsed batches hold zero rows in total fails
with the empty-input `ValueError`; the database is untouched and the
canonical artifact binding is exactly what it was before. -/
theorem c4_empty_input_fails_cleanly (parse : PdParser) (csv_bytes : List Nat)
    (name : String) (fs : FileSys) (db : DB) (batches : List PFile)
    (hit : (_read_csv_iterator parse 400000 ⟨csv_bytes, 0, true⟩).2 =
      .ok ⟨batches, none⟩)
    (hz : (batches.map (fun b => b.rows.length)).sum = 0) :
    ∃ fs', prepare_from_uploaded_csv_bytes parse csv_bytes name fs db =
        ((fs', db), .error "ValueError: Nenhum chunk lido do CSV.") ∧
      fsLookup fs' (name ++ ".parquet") = fsLookup fs (name ++ ".parquet") := by
  refine ⟨fsRemoveMatching fs (tmpMatch name) ++ segsList name 0 batches,
    ?_, fsLookup_artifact_after_segs fs name batches⟩
  simp only [prepare_from_uploaded_csv_bytes,
    read_csv_empty_eq parse ⟨csv_bytes, 0, true⟩ name 400000 fs batches hit hz]

/-- C4 witness: a parse yielding one zero-row batch trips the guard; a
pre-existing artifact and table survive unchanged. -/
theorem c4_witness :
    ((_read_csv_iterator (fun _ _ _ => .ok ⟨[⟨["a"], []⟩], none⟩)
        400000 ⟨[7], 0, true⟩).2 = .ok ⟨[⟨["a"], []⟩], none⟩) ∧
    (([⟨["a"], []⟩] : List PFile).map (fun b => b.rows.length)).sum = 0 ∧
    (∃ fs', prepare_from_uploaded_csv_bytes
        (fun _ _ _ => .ok ⟨[⟨["a"], []⟩], none⟩) [7] "x"
        [("x.parquet", ⟨["a"], [["old"]]⟩)] ⟨[("x", ⟨["a"], [["old"]]⟩)], none⟩ =
        ((fs', ⟨[("x", ⟨["a"], [["old"]]⟩)], none⟩),
         .error "ValueError: Nenhum chunk lido do CSV.") ∧
      fsLookup fs' ("x" ++ ".parquet") =
        fsLookup [("x.parquet", ⟨["a"], [["old"]]⟩)] ("x" ++ ".parquet")) :=
  ⟨rfl, by decide,
    c4_empty_input_fails_cleanly (fun _ _ _ => .ok ⟨[⟨["a"], []⟩], none⟩)
      [7] "x" [("x.parquet", ⟨["a"], [["old"]]⟩)]
      ⟨[("x", ⟨["a"], [["old"]]⟩)], none⟩ [⟨["a"], []⟩] rfl (by decide)⟩

/-! ## Claim C8: temp segments across success and failure -/

/-- C8 counterexample: a run whose chunk iteration fails after the first
batch (a tokenizer error in a later chunk) raises, and the temp segment
written for the first batch remains on disk afterwards — refuting the
claim that no failure path leaks `tmp_{name}_*.parquet` files. -/
theorem c8_counterexample :
    ((read_csv_semicolon_to_parquet
        (fun _ _ _ => .ok ⟨[⟨["a"], [["1"]]⟩], some "ParserError: Error tokenizing data"⟩)
        ⟨[], 0, true⟩ "x" 400000 []).2 =
      .error "ParserError: Error tokenizing data") ∧
    fsGlob (read_csv_semicolon_to_parquet
        (fun _ _ _ => .ok ⟨[⟨["a"], [["1"]]⟩], some "ParserError: Error tokenizing data"⟩)
        ⟨[], 0, true⟩ "x" 400000 []).1 (tmpMatch "x") =
      [("tmp_x_000000.parquet", ⟨["a"], [["1"]]⟩)] := by
  decide

/-- C8 amended: a run that completes successfully leaves no file
matching `tmp_{name}_*.parquet`; and every run removes all such files
before writing its first segment (so segments leaked by a failed run
are cleared by the next run, not by the failing one). -/
theorem c8_no_segments_after_success (parse : PdParser) (fobj : ByteStream)
    (name : String) (chunksize : Nat) (fs fs' : FileSys) (p : String)
    (h : read_csv_semicolon_to_parquet parse fobj name chunksize fs =
      (fs', .ok p)) :
    fsGlob fs' (tmpMatch name) = [] ∧
    ∀ gs : FileSys, fsGlob (fsRemoveMatching gs (tmpMatch name)) (tmpMatch name) = [] := by
  refine ⟨?_, fun gs => fsGlob_removeMatching gs (tmpMatch name)⟩
  simp only [read_csv_semicolon_to_parquet] at h
  split at h
  · exact absurd (congrArg Prod.snd h) (by simp)
  · split at h
    · exact absurd (congrArg Prod.snd h) (by simp)
    · split at h
      · exact absurd (congrArg Prod.snd h) (by simp)
      · split at h
        · exact absurd (congrArg Prod.snd h) (by simp)
        · have hf := congrArg Prod.fst h
          simp only at hf
          rw [← hf]
          exact fsGlob_removeMatching _ _

/-- C8 amended witness: a successful one-batch run ends with only the
canonical artifact on disk. -/
theorem c8_amended_witness :
    (read_csv_semicolon_to_parquet (fun _ _ _ => .ok ⟨[⟨["a"], [["1"]]⟩], none⟩)
        ⟨[], 0, true⟩ "x" 1 [] =
      ([("x.parquet", ⟨["a"], [["1"]]⟩)], .ok "x.parquet")) ∧
    fsGlob [("x.parquet", ⟨["a"], [["1"]]⟩)] (tmpMatch "x") = [] :=
  ⟨by decide,
    (c8_no_segments_after_success (fun _ _ _ => .ok ⟨[⟨["a"], [["1"]]⟩], none⟩)
      ⟨[], 0, true⟩ "x" 1 [] [("x.parquet", ⟨["a"], [["1"]]⟩)] "x.parquet"
      (by decide)).1⟩

/-! ## Lemmas: the batch orchestrator -/

theorem stripMsg_logFor (d url : String) (r : Except String Unit) :
    stripMsg (logFor d url r) = (specStatus r, d, url) := by
  cases r with
  | ok _ => rfl
  | error e =>
      by_cases h : isNotFoundMsg e = true
      · simp [logFor, specStatus, stripMsg, h]
      · simp only [Bool.not_eq_true] at h
        simp [logFor, specStatus, stripMsg, h]

theorem specRun_append {σ : Type} (attempt : Attempt σ) (base : String) :
    ∀ (l1 l2 : List PlanItem) (st : σ),
      specRun attempt base st (l1 ++ l2) =
        ((specRun attempt base (specRun attempt base st l1).1 l2).1,
         (specRun attempt base st l1).2 ++
           (specRun attempt base (specRun attempt base st l1).1 l2).2) := by
  intro l1
  induction l1 with
  | nil => intro l2 st; simp [specRun]
  | cons item rest ih =>
      intro l2 st
      cases item with
      | noFiles d =>
          simp only [List.cons_append, specRun, List.append_eq]
          rw [ih l2 st]
      | fileAttempt d url =>
          simp only [List.cons_append, specRun, List.append_eq]
          rcases ha : attempt st d url with ⟨st1, r⟩
          simp only []
          rw [ih l2 st1]

theorem runFiles_eq_specRun {σ : Type} (attempt : Attempt σ) (d base : String) :
    ∀ (files : List String) (st : σ),
      ((runFiles attempt d base st files).1,
       (runFiles attempt d base st files).2.map stripMsg) =
      specRun attempt base st (files.map (fun f => PlanItem.fileAttempt d (base ++ f))) := by
  intro files
  induction files with
  | nil => intro st; rfl
  | cons f rest ih =>
      intro st
      rcases ha : attempt st d (base ++ f) with ⟨st1, r⟩
      have ih1 := congrArg Prod.fst (ih st1)
      have ih2 := congrArg Prod.snd (ih st1)
      simp only [] at ih1 ih2
      simp only [runFiles, specRun, List.map_cons, ha, List.map]
      rw [Prod.mk.injEq]
      exact ⟨ih1, by rw [stripMsg_logFor, ih2]⟩

theorem runDatasets_eq_specRun {σ : Type} (attempt : Attempt σ) (base : String) :
    ∀ (ts : List String) (st : σ),
      ((runDatasets attempt base st ts).1,
       (runDatasets attempt base st ts).2.map stripMsg) =
      specRun attempt base st (planFor base ts) := by
  intro ts
  induction ts with
  | nil => intro st; rfl
  | cons d ds ih =>
      intro st
      have hplan : planFor base (d :: ds) =
          (match expectedFiles d with
           | [] => [PlanItem.noFiles d]
           | files => files.map (fun f => PlanItem.fileAttempt d (base ++ f))) ++
          planFor base ds := by
        simp [planFor]
      rw [hplan, specRun_append]
      cases hfe : expectedFiles d with
      | nil =>
          simp only [runDatasets, hfe, specRun]
          have ih1 := congrArg Prod.fst (ih st)
          have ih2 := congrArg Prod.snd (ih st)
          simp only [] at ih1 ih2
          rw [Prod.mk.injEq]
          constructor
          · rw [← ih1]
          · simp only [List.map_append, List.map_cons, List.map_nil]
            rw [← ih2]
            rfl
      | cons f more =>
          simp only [runDatasets, hfe]
          have hrf := runFiles_eq_specRun attempt d base (f :: more) st
          have hrf1 := congrArg Prod.fst hrf
          have hrf2 := congrArg Prod.snd hrf
          simp only [] at hrf1 hrf2
          have ih1 := congrArg Prod.fst (ih (runFiles attempt d base st (f :: more)).1)
          have ih2 := congrArg Prod.snd (ih (runFiles attempt d base st (f :: more)).1)
          simp only [] at ih1 ih2
          rw [Prod.mk.injEq]
          constructor
          · rw [← hrf1, ← ih1]
          · simp only [List.map_append]
            rw [← hrf1, ← hrf2, ← ih2]

/-! ## Claim about the batch orchestrator -/

/-- C2: the batch run never propagates an attempt's exception; it
produces, in the order attempted, exactly one outcome per planned
`(dataset, file)` attempt (plus one `warn` for a dataset with no
configured files), with status `ok` on success, `warn` when the failure
message signals not-found, `error` otherwise — i.e. it equals the
spec-side `specRun` over the planned attempts. -/
theorem c2_orchestrator_outcome_policy {σ : Type} (attempt : Attempt σ)
    (year month : Nat) (datasets : Option (List String)) (st : σ) :
    ((prepare_all_for_month attempt year month datasets st).1,
     (prepare_all_for_month attempt year month datasets st).2.map stripMsg) =
      specRun attempt (month_dir_url year month) st
        (planFor (month_dir_url year month) (resolveTargets datasets)) :=
  runDatasets_eq_specRun attempt (month_dir_url year month)
    (resolveTargets datasets) st

end Loaders
